import Mathlib

/-
  Verification of the DNS benchmark tool (dns_bench_linux.py).

  The embedding below is a shallow model of the pure logic of the script.
  Python strings are Lean strings, manipulated through executable helpers
  that mirror the Python string methods the source uses.  Python floats are
  modelled as exact rationals together with the float infinity sentinel the
  source uses for failed probes; the source treats measured times abstractly
  and never relies on rounding behaviour.  All interaction with the outside
  world (files, subprocesses, wall clocks) is passed in as explicit data.
-/

namespace DnsBench

/-- Characters treated as whitespace by the Python str.split and str.strip
defaults (the ASCII subset; every text the source scans is ASCII). -/
def pyWs (c : Char) : Bool :=
  c = ' ' || c = '\t' || c = '\n' || c = '\r' || c = '\x0b' || c = '\x0c'

/-- Split a character list at every separator satisfying p, keeping empty
groups, exactly as Python str.split with an explicit separator does. -/
def splitPred (p : Char → Bool) : List Char → List (List Char)
  | [] => [[]]
  | c :: cs =>
    if p c then [] :: splitPred p cs
    else
      match splitPred p cs with
      | [] => [[c]]
      | g :: gs => (c :: g) :: gs

/-- Python s.split(sep) for a one-character separator. -/
def strSplitCh (s : String) (sep : Char) : List String :=
  (splitPred (fun c => c = sep) s.data).map String.mk

/-- Python s.split() with no argument: split on whitespace runs, dropping
empty tokens. -/
def pySplitWs (s : String) : List String :=
  ((splitPred pyWs s.data).filter (fun g => !g.isEmpty)).map String.mk

/-- Python s.strip(). -/
def pyStrip (s : String) : String :=
  String.mk (((s.data.dropWhile pyWs).reverse.dropWhile pyWs).reverse)

/-- Python s.startswith(pat). -/
def pyStartsWith (s pat : String) : Bool :=
  pat.data.isPrefixOf s.data

/-- Python membership test of pat in s (contiguous substring). -/
def hasSub (s pat : String) : Bool :=
  (List.range (s.data.length + 1)).any (fun i => pat.data.isPrefixOf (s.data.drop i))

/-- Python s.split(sep, 1)[1] for the colon separator: everything after the
first colon.  Every caller in the source guards on the colon being present. -/
def afterFirstColon (s : String) : String :=
  String.mk ((s.data.dropWhile (fun c => !(c = ':'))).drop 1)

/-- Base code points of the contiguous runs of ten decimal digits that
form the Unicode Nd category.  In Python, the regex digit class of str
patterns and the int builtin accept exactly the Nd digits; the table
below was read off the interpreter the source targets, every run of
which encodes the values zero through nine in order. -/
def ndBases : List Nat :=
  [48, 1632, 1776, 1984, 2406, 2534, 2662, 2790, 2918, 3046, 3174, 3302,
   3430, 3558, 3664, 3792, 3872, 4160, 4240, 6112, 6160, 6470, 6608, 6784,
   6800, 6992, 7088, 7232, 7248, 42528, 43216, 43264, 43472, 43504, 43600,
   44016, 65296, 66720, 68912, 69734, 69872, 69942, 70096, 70384, 70736,
   70864, 71248, 71360, 71472, 71904, 72016, 72784, 73040, 73120, 92768,
   92864, 93008, 120782, 120792, 120802, 120812, 120822, 123200, 123632,
   125264, 130032]

/-- The digit class of the Python regex for str patterns: exactly the
Unicode Nd decimal digits. -/
def pyIsDigit (c : Char) : Bool :=
  ndBases.any (fun b => decide (b ≤ c.toNat) && decide (c.toNat < b + 10))

/-- The decimal value of an Nd digit, via the base of its run; junk 0 on
a non-digit, which no caller reaches. -/
def pyDigitVal (c : Char) : Nat :=
  match ndBases.find? (fun b => decide (b ≤ c.toNat) && decide (c.toNat < b + 10)) with
  | some b => c.toNat - b
  | none => 0

/-- Python int(s): surrounding whitespace is ignored and the decimal
digits are read in base ten.  The source applies it only to dot groups
of a string the IPv4 regex has matched, which are runs of one to three
Nd digits, the last possibly followed by the one trailing newline the
dollar anchor tolerates. -/
def pyInt (s : String) : Nat :=
  (pyStrip s).data.foldl (fun n c => n * 10 + pyDigitVal c) 0

/-- A Python float as the source uses it: an exact rational value, or the
float infinity sentinel that the source attaches to failed probes. -/
inductive PFloat where
  | val (q : ℚ)
  | inf
deriving DecidableEq

/-- Comparison of two such floats, as Python compares them (finite values
by value, infinity above every finite value). -/
def pfLe : PFloat → PFloat → Bool
  | PFloat.val a, PFloat.val b => decide (a ≤ b)
  | PFloat.val _, PFloat.inf => true
  | PFloat.inf, PFloat.val _ => false
  | PFloat.inf, PFloat.inf => true

/-- The finite value of a float; junk (0) on the infinity sentinel, which
every caller below rules out. -/
def PFloat.toQ : PFloat → ℚ
  | PFloat.val q => q
  | PFloat.inf => 0

/-- An anchored Python regex match in single-line mode: the dollar
anchor matches at the end of the string and also just before one newline
at the very end, so an anchored pattern accepts a string exactly when
its core matches the whole string or the string minus one trailing
newline. -/
def pyAnchored (core : List Char → Bool) (s : String) : Bool :=
  core s.data || ((s.data.getLast? == some '\n') && core s.data.dropLast)

/-- The core of the IPv4 regex of validate_ip_address: three groups of
one to three digits each followed by a dot, then a final group of one to
three digits.  Since the digit class excludes the dot, a character list
matches the core exactly when splitting it on dots yields four groups of
one to three Nd digits. -/
def ipv4Core (cs : List Char) : Bool :=
  let parts := splitPred (fun c => decide (c = '.')) cs
  parts.length == 4 &&
    parts.all (fun p =>
      decide (1 ≤ p.length) && decide (p.length ≤ 3) && p.all pyIsDigit)

/-- The anchored IPv4 regex match of validate_ip_address. -/
def ipv4Shape (s : String) : Bool :=
  pyAnchored ipv4Core s

/-- Hexadecimal digit class of the IPv6 regex in validate_ip_address, an
explicit ASCII class in the source. -/
def hexDigitCh (c : Char) : Bool :=
  Char.isDigit c || ('a' ≤ c && c ≤ 'f') || ('A' ≤ c && c ≤ 'F')

/-- The core of the IPv6 regex of validate_ip_address: two to seven
groups of zero to four hex digits each followed by a colon, then a final
group of zero to four hex digits.  Since the hex class excludes the
colon, a character list matches the core exactly when splitting it on
colons yields three to eight groups of at most four hex digits. -/
def ipv6Core (cs : List Char) : Bool :=
  let parts := splitPred (fun c => decide (c = ':')) cs
  decide (3 ≤ parts.length) && decide (parts.length ≤ 8) &&
    parts.all (fun p => decide (p.length ≤ 4) && p.all hexDigitCh)

/-- The anchored IPv6 regex match of validate_ip_address. -/
def ipv6Shape (s : String) : Bool :=
  pyAnchored ipv6Core s

/-- DNSBenchmark.validate_ip_address: try the IPv4 regex first and, on a
match, check every dot group of the original string has int value
between 0 and 255; otherwise accept exactly the strings matching the
permissive IPv6 regex. -/
def validate_ip_address (ip : String) : Bool :=
  if ipv4Shape ip then
    (strSplitCh ip '.').all (fun p => decide (0 ≤ pyInt p) && decide (pyInt p ≤ 255))
  else if ipv6Shape ip then
    true
  else
    false

/-- The data the discovery routine reads from the host, passed in
explicitly: the lines of /etc/resolv.conf (none when opening the file
raises), and for each of the three external commands the pair of return
code and standard output (none when invoking the command raises, say on
a missing binary or a timeout). -/
structure DiscoveryEnv where
  resolv_conf : Option (List String)
  systemd_resolve : Option (Int × String)
  resolvectl : Option (Int × String)
  nmcli : Option (Int × String)

/-- Candidate tokens of method 1 of get_current_dns_servers: for every line
of /etc/resolv.conf whose stripped form starts with the nameserver keyword
and splits into at least two whitespace separated fields, the second
field. -/
def resolvConfTokens : Option (List String) → List String
  | none => []
  | some ls => ls.flatMap (fun line =>
      let t := pyStrip line
      if pyStartsWith t "nameserver" then
        let parts := pySplitWs t
        if 2 ≤ parts.length then [parts.getD 1 ""] else []
      else [])

/-- The scan of up to nine lines following a DNS-servers marker line in
method 2 of get_current_dns_servers: a stripped nonempty line containing
none of colon, equals sign, or the Domain word contributes its whitespace
separated tokens; a line containing a colon or an equals sign ends the
scan; any other line is skipped. -/
def windowTokens : List String → List String
  | [] => []
  | line :: rest =>
    let t := pyStrip line
    if !(t == "") && !(hasSub t ":") && !(hasSub t "=") && !(hasSub t "Domain") then
      pySplitWs t ++ windowTokens rest
    else if hasSub t ":" || hasSub t "=" then
      []
    else
      windowTokens rest

/-- Candidate tokens contributed by one line of status output in method 2:
on a marker line, the whitespace separated tokens of the text after the
first colon, followed by the tokens of the nine-line window below it. -/
def statusLineTokens (lines : List String) (i : Nat) (line : String) : List String :=
  if hasSub line "DNS Servers:" || hasSub line "DNS Server:" then
    (if hasSub line ":" then pySplitWs (pyStrip (afterFirstColon line)) else []) ++
      windowTokens ((lines.drop (i + 1)).take 9)
  else []

/-- Candidate tokens of one status command in method 2 of
get_current_dns_servers (the source runs both status commands in turn and
never breaks out of that loop): nothing unless the command ran and
returned zero, else the marker-line tokens over all lines of its output. -/
def statusTokens : Option (Int × String) → List String
  | none => []
  | some (rc, out) =>
    if rc == 0 then
      let lines := strSplitCh out '\n'
      (lines.enum.map (fun p => statusLineTokens lines p.1 p.2)).flatten
    else []

/-- Candidate tokens of method 3 of get_current_dns_servers: for every
line of the nmcli output mentioning an IP4.DNS or IP6.DNS property and
containing a colon, the stripped text after the first colon. -/
def nmcliTokens : Option (Int × String) → List String
  | none => []
  | some (rc, out) =>
    if rc == 0 then
      (strSplitCh out '\n').flatMap (fun line =>
        if hasSub line "IP4.DNS" || hasSub line "IP6.DNS" then
          if hasSub line ":" then [pyStrip (afterFirstColon line)] else []
        else [])
    else []

/-- All candidate tokens of get_current_dns_servers in discovery order:
method 1 (resolv.conf), then method 2 for each of the two status commands,
then method 3 (nmcli). -/
def discoveryCandidates (env : DiscoveryEnv) : List String :=
  resolvConfTokens env.resolv_conf ++ statusTokens env.systemd_resolve ++
    statusTokens env.resolvectl ++ nmcliTokens env.nmcli

/-- The guard get_current_dns_servers applies to every candidate before
insertion: validate_ip_address and not startswith 127-dot. -/
def discoveryGuard (server : String) : Bool :=
  validate_ip_address server && !(pyStartsWith server "127.")

/-- One insertion step of get_current_dns_servers.  The state is the pair
of the dns_servers list and the seen_servers set; the set is modelled as
the list of its insertion-ordered elements, which the source keeps in
lockstep with dns_servers. -/
def discoveryStep (st : List String × List String) (server : String) :
    List String × List String :=
  if discoveryGuard server then
    if st.2.contains server then st
    else (st.1 ++ [server], st.2 ++ [server])
  else st

/-- DNSBenchmark.get_current_dns_servers: fold the insertion step over all
candidate tokens, starting from the empty list and empty seen set. -/
def get_current_dns_servers (env : DiscoveryEnv) : List String :=
  ((discoveryCandidates env).foldl discoveryStep ([], [])).1

/-- First-occurrence deduplication relative to a list of already seen
elements: keep each element whose first occurrence this is, in order. -/
def dedupFirstAux (seen : List String) : List String → List String
  | [] => []
  | a :: l =>
    if seen.contains a then dedupFirstAux seen l
    else a :: dedupFirstAux (seen ++ [a]) l

/-- First-occurrence deduplication of a list: keeps exactly the first
occurrence of every element, preserving order. -/
def dedupFirst (l : List String) : List String :=
  dedupFirstAux [] l

/-- The outcome of the one external lookup subprocess inside query_dns:
either the process completed with a return code and standard output, or
the bounded wait expired, or invoking it raised some other exception. -/
inductive ProcResult where
  | completed (returncode : Int) (stdout : String)
  | timedOut
  | raised
deriving DecidableEq

/-- The literal the nslookup branch of query_dns searches for (written
with an explicit code point for its apostrophe character). -/
def cantFindMarker : String :=
  String.mk ['c', 'a', 'n', Char.ofNat 39, 't', ' ', 'f', 'i', 'n', 'd']

/-- DNSBenchmark.query_dns for one domain and one server.  The subprocess
outcome and the measured wall-clock elapsed milliseconds are passed in.
On a timeout or any other exception the source returns false with the
infinity sentinel; on a nonzero return code likewise.  On return code zero
the success flag is: for dig, nonempty stripped output; for nslookup, no
NXDOMAIN marker, no cant-find marker, and nonempty stripped output (the
source returns the truthiness of that Python expression).  The elapsed
time is returned only alongside success, else the sentinel.  The success
expression is factored out as querySuccess. -/
def querySuccess (dig_available : Bool) (out : String) : Bool :=
  if dig_available then !(pyStrip out == "")
  else !(hasSub out "NXDOMAIN") && !(hasSub out cantFindMarker) && !(pyStrip out == "")

/-- DNSBenchmark.query_dns, given the subprocess outcome and measured
elapsed time; see the comment on querySuccess above. -/
def query_dns (dig_available : Bool) (proc : ProcResult) (elapsedMs : ℚ) :
    Bool × PFloat :=
  match proc with
  | ProcResult.timedOut => (false, PFloat.inf)
  | ProcResult.raised => (false, PFloat.inf)
  | ProcResult.completed rc out =>
    if rc == 0 then
      let success := querySuccess dig_available out
      (success, if success then PFloat.val elapsedMs else PFloat.inf)
    else (false, PFloat.inf)

/-- The fixed list of test domains of DNSBenchmark. -/
def test_domains : List String :=
  ["google.com", "facebook.com", "youtube.com", "amazon.com",
   "wikipedia.org", "twitter.com", "instagram.com", "linkedin.com",
   "github.com", "stackoverflow.com", "reddit.com", "netflix.com",
   "apple.com", "microsoft.com", "cloudflare.com", "baidu.com",
   "yahoo.com", "ebay.com", "cnn.com", "bbc.com",
   "spotify.com", "zoom.us", "adobe.com", "oracle.com"]

/-- The full public server table of DNSBenchmark, in insertion order
(Python dictionaries iterate in insertion order). -/
def public_dns_servers : List (String × String) :=
  [("Cloudflare", "1.1.1.1"), ("Cloudflare-2", "1.0.0.1"),
   ("Google", "8.8.8.8"), ("Google-2", "8.8.4.4"),
   ("Quad9", "9.9.9.9"), ("Quad9-2", "149.112.112.112"),
   ("OpenDNS", "208.67.222.222"), ("OpenDNS-2", "208.67.220.220"),
   ("Level3", "4.2.2.1"), ("Level3-2", "4.2.2.2")]

/-- The curated top3 table of DNSBenchmark, in insertion order. -/
def top3_dns_servers : List (String × String) :=
  [("Cloudflare", "1.1.1.1"), ("Google", "8.8.8.8"), ("Quad9", "9.9.9.9")]

/-- statistics.mean on a nonempty sample list (exact in the rational
model). -/
def pyMean (l : List ℚ) : ℚ := l.sum / l.length

/-- Python min over a nonempty list (junk 0 on the empty list, which the
source rules out before calling it). -/
def pyMin : List ℚ → ℚ
  | [] => 0
  | a :: t => t.foldl min a

/-- Python max over a nonempty list (junk 0 on the empty list). -/
def pyMax : List ℚ → ℚ
  | [] => 0
  | a :: t => t.foldl max a

/-- statistics.median: sort ascending, take the middle element for odd
length and the mean of the two middle elements for even length. -/
def pyMedian (l : List ℚ) : ℚ :=
  let s := List.insertionSort (· ≤ ·) l
  let n := s.length
  if n % 2 == 1 then s.getD (n / 2) 0
  else (s.getD (n / 2 - 1) 0 + s.getD (n / 2) 0) / 2

/-- The per-server result dictionary benchmark_server returns. -/
structure ServerResult where
  name : String
  server : String
  success_rate : ℚ
  successful_queries : Nat
  failed_queries : Nat
  avg_time : PFloat
  min_time : PFloat
  max_time : PFloat
  median_time : PFloat
deriving DecidableEq

/-- The success test benchmark_server applies to one probe outcome:
success flag set and elapsed time not the infinity sentinel. -/
def probeOk (o : Bool × PFloat) : Bool :=
  o.1 && !(o.2 == PFloat.inf)

/-- The sample benchmark_server extracts from one probe outcome: the
elapsed time of an outcome passing the success test, nothing otherwise. -/
def probeSample (o : Bool × PFloat) : Option ℚ :=
  match o with
  | (true, PFloat.val t) => some t
  | _ => none

/-- DNSBenchmark.benchmark_server.  The probe argument gives the outcome
of query_dns for a domain and a server; the source runs the probes in a
three-worker pool and aggregates in completion order, but every statistic
it computes is insensitive to the sample order (mean, min, max and median
are multiset functions in the rational model), so the embedding aggregates
in domain-list order.  Elapsed times of outcomes passing the success test
form the sample list; every other outcome counts as one failed query. -/
def benchmark_server (probe : String → String → Bool × PFloat)
    (dns_server name : String) : ServerResult :=
  let outcomes := test_domains.map (fun domain => probe domain dns_server)
  let successful : List ℚ := outcomes.filterMap probeSample
  let failed : Nat := (outcomes.filter (fun o => !(probeOk o))).length
  let total : Nat := test_domains.length
  { name := name
    server := dns_server
    success_rate := ((successful.length : ℚ) / (total : ℚ)) * 100
    successful_queries := successful.length
    failed_queries := failed
    avg_time := if successful.isEmpty then PFloat.inf else PFloat.val (pyMean successful)
    min_time := if successful.isEmpty then PFloat.inf else PFloat.val (pyMin successful)
    max_time := if successful.isEmpty then PFloat.inf else PFloat.val (pyMax successful)
    median_time := if successful.isEmpty then PFloat.inf else PFloat.val (pyMedian successful) }

/-- The server list run_benchmark assembles before benchmarking, modelled
step by step as the source appends: start empty; append a labelled entry
for every current server when test_current; append a labelled entry for
every custom server passing validation (an invalid one is only skipped
with a printed warning); extend with the top3 table or the full public
table when test_public. -/
def servers_to_test (current_dns : List String) (custom_servers : Option (List String))
    (test_current test_public top3_only : Bool) : List (String × String) :=
  let s1 : List (String × String) := []
  let s2 := if test_current then
      current_dns.foldl (fun acc server => acc ++ [("Current-" ++ server, server)]) s1
    else s1
  let s3 := match custom_servers with
    | some cs => cs.foldl (fun acc server =>
        if validate_ip_address server then acc ++ [("Custom-" ++ server, server)] else acc) s2
    | none => s2
  if test_public then
    if top3_only then s3 ++ top3_dns_servers else s3 ++ public_dns_servers
  else s3

/-- The observable outcome of run_benchmark: the early return after the
printed configuration error when neither lookup tool is available, or a
completed run with its result list (the source returns an empty list in
both cases; the printed error message distinguishes them, which the
constructor records). -/
inductive RunOutcome where
  | configError
  | completed (results : List ServerResult)
deriving DecidableEq

/-- DNSBenchmark.run_benchmark.  Tool availability, the discovery
environment and the probe outcomes are passed in.  When neither dig nor
nslookup is available the source prints the configuration error and
returns at once, before discovery and before any benchmarking.  Otherwise
it discovers current servers when test_current, assembles the server list
and benchmarks the servers one after another in list order.  The model
leaves out the keyboard-interrupt path and the per-server exception
handler, which are unreachable for the total probe functions of the
embedding. -/
def run_benchmark (dig_available nslookup_available : Bool) (env : DiscoveryEnv)
    (probe : String → String → Bool × PFloat)
    (test_current test_public : Bool) (custom_servers : Option (List String))
    (top3_only : Bool) : RunOutcome :=
  if !dig_available && !nslookup_available then RunOutcome.configError
  else
    let current_dns := if test_current then get_current_dns_servers env else []
    let servers := servers_to_test current_dns custom_servers test_current test_public top3_only
    RunOutcome.completed (servers.map (fun ns => benchmark_server probe ns.2 ns.1))

/-- The valid partition of print_results: results with a finite average. -/
def valid_results (results : List ServerResult) : List ServerResult :=
  results.filter (fun r => !(r.avg_time == PFloat.inf))

/-- The failed partition of print_results: results whose average is the
infinity sentinel. -/
def failed_results (results : List ServerResult) : List ServerResult :=
  results.filter (fun r => r.avg_time == PFloat.inf)

/-- The comparison underlying the sort of print_results: ordered by the
average-time key. -/
def resultLe (a b : ServerResult) : Prop :=
  pfLe a.avg_time b.avg_time = true

instance : DecidableRel resultLe := fun a b => by
  unfold resultLe
  infer_instance

instance : IsTotal ServerResult resultLe :=
  ⟨fun a b => by
    unfold resultLe
    have key : ∀ u v : PFloat, pfLe u v = true ∨ pfLe v u = true := by
      intro u v
      cases u <;> cases v <;> simp [pfLe]
      exact le_total _ _
    exact key a.avg_time b.avg_time⟩

instance : IsTrans ServerResult resultLe :=
  ⟨fun x y z h1 h2 => by
    unfold resultLe at h1 h2 ⊢
    have key : ∀ u v w : PFloat, pfLe u v = true → pfLe v w = true → pfLe u w = true := by
      intro u v w hu hv
      cases u <;> cases v <;> cases w <;> simp [pfLe] at hu hv ⊢
      exact le_trans hu hv
    exact key x.avg_time y.avg_time z.avg_time h1 h2⟩

/-- The sorted ranked list of print_results.  The Python sort is a stable
sort by the average-time key; a stable sort by a total preorder has a
unique result, which insertion sort with orderedInsert computes (each
element is inserted before later-listed elements of equal key). -/
def sortValid (results : List ServerResult) : List ServerResult :=
  List.insertionSort resultLe (valid_results results)

/-- The recommendation block of print_results can print nothing beyond
the best server, or the rank of the best current server together with the
relative improvement of switching, or the message that the current server
is already the fastest. -/
inductive Recommendation where
  | noReport
  | improvement (rank : Nat) (pct : ℚ)
  | alreadyFastest
deriving DecidableEq

/-- The recommendation block of print_results, applied to the sorted
valid list: with no valid result or no current-labelled valid result or a
single valid result, nothing is reported; otherwise the first
current-labelled result is ranked by value equality against the sorted
list, and either the improvement formula or the already-fastest message
is reported. -/
def recommendFrom (valid : List ServerResult) : Recommendation :=
  match valid with
  | [] => Recommendation.noReport
  | best :: _ =>
    let currents := valid.filter (fun r => pyStartsWith r.name "Current-")
    match currents with
    | [] => Recommendation.noReport
    | current_best :: _ =>
      if 1 < valid.length then
        let current_rank := valid.findIdx (fun r => r == current_best) + 1
        if 1 < current_rank then
          Recommendation.improvement current_rank
            (((current_best.avg_time.toQ - best.avg_time.toQ) / current_best.avg_time.toQ) * 100)
        else Recommendation.alreadyFastest
      else Recommendation.noReport

/-- The table mode output of print_results: the ranked valid results, the
separately listed failed results, and the recommendation. -/
structure TableReport where
  ranked : List ServerResult
  failed : List ServerResult
  recommendation : Recommendation
deriving DecidableEq

/-- The output shape of print_results: nothing at all, a JSON dump of the
raw result list, or the formatted table. -/
inductive ReportOutput where
  | silent
  | jsonOut (results : List ServerResult)
  | tableOut (report : TableReport)
deriving DecidableEq

/-- DNSBenchmark.print_results: return at once on an empty result list
(before the JSON branch), dump the raw unsorted list in JSON mode, and
otherwise emit the table built from the sorted valid results, the failed
results and the recommendation computed on the sorted valid list. -/
def print_results (results : List ServerResult) (json_output : Bool) : ReportOutput :=
  if results.isEmpty then ReportOutput.silent
  else if json_output then ReportOutput.jsonOut results
  else ReportOutput.tableOut
    ⟨sortValid results, failed_results results, recommendFrom (sortValid results)⟩

/-- A concrete current-labelled result with average 100, for the example
instances of the recommendation block. -/
def exCurrent : ServerResult :=
  { name := "Current-10.0.0.1", server := "10.0.0.1", success_rate := 100,
    successful_queries := 24, failed_queries := 0, avg_time := PFloat.val 100,
    min_time := PFloat.val 90, max_time := PFloat.val 110, median_time := PFloat.val 100 }

/-- A concrete public result with average 50, for the example instances
of the recommendation block. -/
def exBest : ServerResult :=
  { name := "Cloudflare", server := "1.1.1.1", success_rate := 100,
    successful_queries := 24, failed_queries := 0, avg_time := PFloat.val 50,
    min_time := PFloat.val 40, max_time := PFloat.val 60, median_time := PFloat.val 50 }

/-- A concrete discovery environment: a resolver configuration with a
duplicated public server and a loopback stub entry, and no usable status
commands. -/
def exEnv : DiscoveryEnv :=
  ⟨some ["nameserver 1.1.1.1", "nameserver 1.1.1.1", "nameserver 127.0.0.53"],
    none, none, none⟩

/-- A probe behaviour that always fails, for concrete instances. -/
def exFailProbe : String → String → Bool × PFloat :=
  fun _ _ => (false, PFloat.inf)

theorem foldl_discoveryStep_eq (l : List String) :
    ∀ ds : List String,
      (l.foldl discoveryStep (ds, ds)).1 = ds ++ dedupFirstAux ds (l.filter discoveryGuard) := by
  induction l with
  | nil => intro ds; simp [dedupFirstAux]
  | cons a t ih =>
    intro ds
    by_cases hg : discoveryGuard a = true
    · by_cases hc : a ∈ ds
      · simp [List.foldl_cons, discoveryStep, hg, hc, List.filter_cons, dedupFirstAux, ih]
      · simpa [List.foldl_cons, discoveryStep, hg, hc, List.filter_cons, dedupFirstAux] using
          ih (ds ++ [a])
    · simp [List.foldl_cons, discoveryStep, hg, List.filter_cons, ih]

theorem mem_dedupFirstAux (x : String) :
    ∀ (l seen : List String), x ∈ dedupFirstAux seen l → x ∈ l := by
  intro l
  induction l with
  | nil => intro seen h; simp [dedupFirstAux] at h
  | cons a t ih =>
    intro seen h
    by_cases hc : a ∈ seen
    · simp only [dedupFirstAux] at h
      rw [if_pos (by simpa using hc)] at h
      exact List.mem_cons_of_mem a (ih seen h)
    · simp only [dedupFirstAux] at h
      rw [if_neg (by simpa using hc)] at h
      rcases List.mem_cons.mp h with h1 | h2
      · exact h1 ▸ List.mem_cons_self a t
      · exact List.mem_cons_of_mem a (ih (seen ++ [a]) h2)

theorem dedupFirstAux_nodup_unseen :
    ∀ (l seen : List String),
      (dedupFirstAux seen l).Nodup ∧ ∀ x ∈ dedupFirstAux seen l, seen.contains x = false := by
  intro l
  induction l with
  | nil => intro seen; simp [dedupFirstAux]
  | cons a t ih =>
    intro seen
    by_cases hc : a ∈ seen
    · simpa [dedupFirstAux, hc] using ih seen
    · have ihx := ih (seen ++ [a])
      have hrw : dedupFirstAux seen (a :: t) = a :: dedupFirstAux (seen ++ [a]) t := by
        simp only [dedupFirstAux]
        rw [if_neg (by simpa using hc)]
      rw [hrw]
      constructor
      · rw [List.nodup_cons]
        refine ⟨fun hmem => ?_, ihx.1⟩
        have := ihx.2 a hmem
        simp at this
      · intro x hx
        rcases List.mem_cons.mp hx with h1 | h2
        · subst h1
          simpa using hc
        · have := ihx.2 x h2
          simp at this
          simpa using this.1

theorem length_filterMap_probeSample (l : List (Bool × PFloat)) :
    (l.filterMap probeSample).length = (l.filter probeOk).length := by
  induction l with
  | nil => rfl
  | cons o t ih =>
    rcases o with ⟨b, pf⟩
    cases b <;> cases pf <;>
      simp [probeSample, probeOk, List.filterMap_cons, List.filter_cons, ih]

theorem filter_length_split {α : Type} (p : α → Bool) (l : List α) :
    (l.filter p).length + (l.filter (fun x => !(p x))).length = l.length := by
  induction l with
  | nil => rfl
  | cons x t ih =>
    by_cases h : p x = true <;> simp [List.filter_cons, h, ← ih] <;> omega

theorem div_mul_hundred (a b : ℚ) : (a / b) * 100 = 100 * a / b := by
  rw [div_mul_eq_mul_div, mul_comm]

/-- Claim C1 (amended).  For every discovery environment, the sequence
returned by get_current_dns_servers is exactly the first-occurrence
deduplication of the validated candidate stream, hence its addresses are
pairwise distinct with the first occurrence kept in discovery order, and
no element starts with the 127-dot octet (so no IPv4 address of the
127.0.0.0/8 loopback block appears).  The source does not exclude the
IPv6 loopback, so that part of the original claim is dropped. -/
theorem claim1_discovery_unique_no_ipv4_loopback (env : DiscoveryEnv) :
    get_current_dns_servers env
        = dedupFirst ((discoveryCandidates env).filter discoveryGuard)
      ∧ (get_current_dns_servers env).Nodup
      ∧ (get_current_dns_servers env).all (fun a => !(pyStartsWith a "127.")) = true := by
  have heq : get_current_dns_servers env
      = dedupFirst ((discoveryCandidates env).filter discoveryGuard) := by
    simpa [get_current_dns_servers, dedupFirst] using
      foldl_discoveryStep_eq (discoveryCandidates env) []
  refine ⟨heq, ?_, ?_⟩
  · rw [heq]
    exact (dedupFirstAux_nodup_unseen _ []).1
  · rw [heq, List.all_eq_true]
    intro x hx
    have hxl := mem_dedupFirstAux x _ [] hx
    have hg : discoveryGuard x = true := (List.mem_filter.mp hxl).2
    simp only [discoveryGuard, Bool.and_eq_true] at hg
    simpa using hg.2

/-- Claim C1 counterexample.  A resolver configuration naming the IPv6
loopback as its nameserver makes discovery return exactly that loopback
address: the 127-dot check of the source never filters the IPv6 loopback,
refuting the claimed loopback exclusion as stated. -/
theorem claim1_counterexample :
    get_current_dns_servers ⟨some ["nameserver ::1"], none, none, none⟩ = ["::1"]
      ∧ "::1" ∈ get_current_dns_servers ⟨some ["nameserver ::1"], none, none, none⟩ := by
  constructor
  · decide
  · decide

/-- Claim C1 witness: the amended statement instantiated on a concrete
environment holding a duplicate entry and a loopback entry. -/
theorem claim1_witness :
    get_current_dns_servers exEnv
        = dedupFirst ((discoveryCandidates exEnv).filter discoveryGuard)
      ∧ (get_current_dns_servers exEnv).Nodup
      ∧ (get_current_dns_servers exEnv).all (fun a => !(pyStartsWith a "127.")) = true :=
  claim1_discovery_unique_no_ipv4_loopback exEnv

/-- Claim C2.  For every probe behaviour, server and name, the counts of
successful and failed queries in the ServerStats produced by
benchmark_server sum to the number of test domains, and the success rate
is exactly one hundred times the successful count divided by that total,
which is the fixed domain count 24 regardless of failures. -/
theorem claim2_counts_and_rate (probe : String → String → Bool × PFloat)
    (dns_server name : String) :
    (benchmark_server probe dns_server name).successful_queries
        + (benchmark_server probe dns_server name).failed_queries = test_domains.length
      ∧ (benchmark_server probe dns_server name).success_rate
        = 100 * ((benchmark_server probe dns_server name).successful_queries : ℚ)
            / (test_domains.length : ℚ)
      ∧ test_domains.length = 24 := by
  refine ⟨?_, ?_, rfl⟩
  · simp only [benchmark_server]
    rw [length_filterMap_probeSample, filter_length_split, List.length_map]
  · simp only [benchmark_server]
    rw [div_mul_hundred]

/-- Claim C2 witness: the counting and rate identities instantiated on a
concrete probe behaviour and server. -/
theorem claim2_witness :
    (benchmark_server exFailProbe "8.8.8.8" "Google").successful_queries
        + (benchmark_server exFailProbe "8.8.8.8" "Google").failed_queries
        = test_domains.length
      ∧ (benchmark_server exFailProbe "8.8.8.8" "Google").success_rate
        = 100 * ((benchmark_server exFailProbe "8.8.8.8" "Google").successful_queries : ℚ)
            / (test_domains.length : ℚ)
      ∧ test_domains.length = 24 :=
  claim2_counts_and_rate exFailProbe "8.8.8.8" "Google"

theorem benchmark_avg_inf_iff (probe : String → String → Bool × PFloat)
    (dns_server name : String) :
    ((benchmark_server probe dns_server name).avg_time = PFloat.inf
      ↔ (benchmark_server probe dns_server name).successful_queries = 0) := by
  simp only [benchmark_server]
  rcases hl : (test_domains.map (fun domain => probe domain dns_server)).filterMap probeSample
    with _ | ⟨a, t⟩
  · simp [hl]
  · simp [hl]

/-- Claim C3.  A benchmark with zero successful probes yields the infinity
sentinel in all four latency statistics and a zero success rate, and the
reporter classifies a benchmark-produced result as failed exactly when its
successful count is zero, as valid exactly otherwise. -/
theorem claim3_zero_success_failed (probe : String → String → Bool × PFloat)
    (dns_server name : String) (results : List ServerResult) (r : ServerResult)
    (hr : r = benchmark_server probe dns_server name) :
    (r.successful_queries = 0 →
        r.avg_time = PFloat.inf ∧ r.min_time = PFloat.inf ∧ r.max_time = PFloat.inf
          ∧ r.median_time = PFloat.inf ∧ r.success_rate = 0)
      ∧ (r ∈ results → (r ∈ failed_results results ↔ r.successful_queries = 0))
      ∧ (r ∈ results → (r ∈ valid_results results ↔ ¬ r.successful_queries = 0)) := by
  subst hr
  have hiff := benchmark_avg_inf_iff probe dns_server name
  refine ⟨?_, ?_, ?_⟩
  · intro h0
    have hl : (test_domains.map (fun domain => probe domain dns_server)).filterMap probeSample
        = [] := by
      simpa [benchmark_server, List.length_eq_zero] using h0
    simp [benchmark_server, hl]
  · intro hmem
    simp [failed_results, List.mem_filter, hmem, hiff]
  · intro hmem
    simp [valid_results, List.mem_filter, hmem, hiff]

/-- Claim C3 witness: a probe that always fails produces a ServerStats
with 24 failed queries whose average is the sentinel and which the
reporter lists as failed. -/
theorem claim3_witness :
    (benchmark_server (fun _ _ => (false, PFloat.inf)) "10.0.0.1" "X").avg_time = PFloat.inf
      ∧ (benchmark_server (fun _ _ => (false, PFloat.inf)) "10.0.0.1" "X").success_rate = 0
      ∧ (benchmark_server (fun _ _ => (false, PFloat.inf)) "10.0.0.1" "X")
          ∈ failed_results [benchmark_server (fun _ _ => (false, PFloat.inf)) "10.0.0.1" "X"] := by
  have h := claim3_zero_success_failed (fun _ _ => (false, PFloat.inf)) "10.0.0.1" "X"
    [benchmark_server (fun _ _ => (false, PFloat.inf)) "10.0.0.1" "X"]
    (benchmark_server (fun _ _ => (false, PFloat.inf)) "10.0.0.1" "X") rfl
  have h0 : (benchmark_server (fun _ _ => (false, PFloat.inf)) "10.0.0.1" "X").successful_queries
      = 0 := by decide
  have hmem : (benchmark_server (fun _ _ => (false, PFloat.inf)) "10.0.0.1" "X")
      ∈ [benchmark_server (fun _ _ => (false, PFloat.inf)) "10.0.0.1" "X"] :=
    List.mem_singleton.mpr rfl
  exact ⟨(h.1 h0).1, (h.1 h0).2.2.2.2, (h.2.1 hmem).mpr h0⟩

theorem pfLe_refl (x : PFloat) : pfLe x x = true := by
  cases x <;> simp [pfLe]

theorem filter_orderedInsert (q : ServerResult → Bool)
    (hq : ∀ x y, q x = true → q y = true → resultLe x y) (a : ServerResult) :
    ∀ l : List ServerResult,
      (List.orderedInsert resultLe a l).filter q
        = if q a then a :: l.filter q else l.filter q := by
  intro l
  induction l with
  | nil => simp [List.orderedInsert, List.filter_cons]
  | cons b t ih =>
    by_cases hab : resultLe a b
    · rw [List.orderedInsert, if_pos hab, List.filter_cons, List.filter_cons]
    · rw [List.orderedInsert, if_neg hab, List.filter_cons]
      by_cases hqb : q b = true
      · by_cases hqa : q a = true
        · exact absurd (hq a b hqa hqb) hab
        · simp [hqb, hqa, ih, List.filter_cons]
      · simp [hqb, ih, List.filter_cons]

theorem filter_insertionSort (q : ServerResult → Bool)
    (hq : ∀ x y, q x = true → q y = true → resultLe x y) :
    ∀ l : List ServerResult, (List.insertionSort resultLe l).filter q = l.filter q := by
  intro l
  induction l with
  | nil => rfl
  | cons a t ih =>
    rw [List.insertionSort, filter_orderedInsert q hq a _, ih, List.filter_cons]

/-- Claim C5.  For every result list, the ranked table list is a
permutation of the valid results, is sorted ascending by the average-time
key, and is stable: for every average value, the subsequence of results
carrying that average is unchanged from its original relative order. -/
theorem claim5_sort_perm_sorted_stable (results : List ServerResult) :
    (sortValid results).Perm (valid_results results)
      ∧ (sortValid results).Sorted resultLe
      ∧ ∀ k : PFloat,
          (sortValid results).filter (fun r => r.avg_time == k)
            = (valid_results results).filter (fun r => r.avg_time == k) := by
  refine ⟨List.perm_insertionSort resultLe _, List.sorted_insertionSort resultLe _, ?_⟩
  intro k
  apply filter_insertionSort
  intro x y hx hy
  have hx2 : x.avg_time = k := by simpa using hx
  have hy2 : y.avg_time = k := by simpa using hy
  unfold resultLe
  rw [hx2, hy2]
  exact pfLe_refl k

/-- Claim C5 witness: the sorting properties instantiated on a concrete
pair of results with averages 100 and 50, with the stability equation
taken at the average value 50. -/
theorem claim5_witness :
    (sortValid [exCurrent, exBest]).Perm (valid_results [exCurrent, exBest])
      ∧ (sortValid [exCurrent, exBest]).Sorted resultLe
      ∧ (sortValid [exCurrent, exBest]).filter (fun r => r.avg_time == PFloat.val 50)
          = (valid_results [exCurrent, exBest]).filter (fun r => r.avg_time == PFloat.val 50) :=
  ⟨(claim5_sort_perm_sorted_stable [exCurrent, exBest]).1,
    (claim5_sort_perm_sorted_stable [exCurrent, exBest]).2.1,
    (claim5_sort_perm_sorted_stable [exCurrent, exBest]).2.2 (PFloat.val 50)⟩

theorem splitPred_all_not (p : Char → Bool) :
    ∀ cs : List Char, (∀ c ∈ cs, p c = false) → splitPred p cs = [cs] := by
  intro cs
  induction cs with
  | nil => intro _; rfl
  | cons c t ih =>
    intro h
    have hc : p c = false := h c (List.mem_cons_self c t)
    have ht := ih (fun x hx => h x (List.mem_cons_of_mem c hx))
    simp [splitPred, hc, ht]

theorem splitPred_exists_sep (p : Char → Bool) (cs : List Char)
    (h : 2 ≤ (splitPred p cs).length) : ∃ c ∈ cs, p c = true := by
  by_contra hno
  push_neg at hno
  have heq : splitPred p cs = [cs] := splitPred_all_not p cs (fun c hc => by
    have := hno c hc
    simpa using this)
  rw [heq] at h
  simp at h

theorem splitPred_mem_of_mem (p : Char → Bool) (c : Char) :
    ∀ cs : List Char, c ∈ cs → p c = false → ∃ g ∈ splitPred p cs, c ∈ g := by
  intro cs
  induction cs with
  | nil => intro h _; simp at h
  | cons d t ih =>
    intro hmem hpc
    by_cases hd : p d = true
    · have hct : c ∈ t := by
        rcases List.mem_cons.mp hmem with h1 | h2
        · subst h1; rw [hd] at hpc; cases hpc
        · exact h2
      rcases ih hct hpc with ⟨g, hg, hcg⟩
      exact ⟨g, by simp only [splitPred, hd, if_pos]; exact List.mem_cons_of_mem _ hg, hcg⟩
    · have hd2 : p d = false := by simpa using hd
      rcases List.mem_cons.mp hmem with h1 | h2
      · subst h1
        cases hsp : splitPred p t with
        | nil => exact ⟨[c], by simp [splitPred, hd2, hsp], by simp⟩
        | cons g gs => exact ⟨c :: g, by simp [splitPred, hd2, hsp], by simp⟩
      · rcases ih h2 hpc with ⟨g, hg, hcg⟩
        cases hsp : splitPred p t with
        | nil => rw [hsp] at hg; simp at hg
        | cons g0 gs =>
          rw [hsp] at hg
          rcases List.mem_cons.mp hg with e1 | e2
          · subst e1
            exact ⟨d :: g, by simp [splitPred, hd2, hsp], List.mem_cons_of_mem d hcg⟩
          · exact ⟨g, by simp [splitPred, hd2, hsp, e2], hcg⟩

theorem splitPred_length (p : Char → Bool) :
    ∀ cs : List Char, (splitPred p cs).length = cs.countP p + 1 := by
  intro cs
  induction cs with
  | nil => simp [splitPred]
  | cons c t ih =>
    by_cases hc : p c = true
    · simp [splitPred, hc, ih, List.countP_cons]
    · rcases hsp : splitPred p t with _ | ⟨g, gs⟩
      · rw [hsp] at ih
        simp at ih
      · rw [hsp] at ih
        simp only [splitPred, hc, if_neg, Bool.not_eq_true, hsp, List.countP_cons]
        simp only [List.length_cons] at ih ⊢
        simp [hc]
        omega

theorem splitPred_mem_sep (p : Char → Bool) (c : Char) :
    ∀ cs : List Char, ∀ g ∈ splitPred p cs, c ∈ g → c ∈ cs ∧ p c = false := by
  intro cs
  induction cs with
  | nil =>
    intro g hg hc
    simp [splitPred] at hg
    subst hg
    simp at hc
  | cons d t ih =>
    intro g hg hc
    by_cases hd : p d = true
    · simp only [splitPred, hd, if_pos] at hg
      rcases List.mem_cons.mp hg with h1 | h2
      · subst h1
        simp at hc
      · rcases ih g h2 hc with ⟨hmem, hp⟩
        exact ⟨List.mem_cons_of_mem d hmem, hp⟩
    · rcases hsp : splitPred p t with _ | ⟨g0, gs⟩
      · have := splitPred_length p t
        rw [hsp] at this
        simp at this
      · have hrw : splitPred p (d :: t) = (d :: g0) :: gs := by
          simp [splitPred, hd, hsp]
        rw [hrw] at hg
        rcases List.mem_cons.mp hg with h1 | h2
        · subst h1
          rcases List.mem_cons.mp hc with hcd | hcg0
          · subst hcd
            exact ⟨List.mem_cons_self c t, by simpa using hd⟩
          · rcases ih g0 (by rw [hsp]; exact List.mem_cons_self g0 gs) hcg0 with ⟨hmem, hp⟩
            exact ⟨List.mem_cons_of_mem d hmem, hp⟩
        · rcases ih g (by rw [hsp]; exact List.mem_cons_of_mem g0 h2) hc with ⟨hmem, hp⟩
          exact ⟨List.mem_cons_of_mem d hmem, hp⟩

theorem mem_dropLast_of_ne_getLast {cs : List Char} {c d : Char}
    (hmem : c ∈ cs) (hlast : cs.getLast? = some d) (hne : c ≠ d) :
    c ∈ cs.dropLast := by
  have hnil : cs ≠ [] := by
    rintro rfl
    simp at hlast
  have hsplit := List.dropLast_append_getLast hnil
  have hlast2 : cs.getLast hnil = d := by
    rw [List.getLast?_eq_getLast cs hnil] at hlast
    exact Option.some.inj hlast
  rw [← hsplit] at hmem
  rcases List.mem_append.mp hmem with h1 | h2
  · exact h1
  · rw [List.mem_singleton] at h2
    rw [hlast2] at h2
    exact absurd h2 hne

theorem pyAnchored_eq_false {core : List Char → Bool} {s : String}
    (h1 : core s.data = false)
    (h2 : s.data.getLast? = some '\n' → core s.data.dropLast = false) :
    pyAnchored core s = false := by
  unfold pyAnchored
  rw [h1]
  by_cases hg : s.data.getLast? = some '\n'
  · rw [h2 hg]
    simp
  · have hgb : (s.data.getLast? == some '\n') = false := by
      simpa using hg
    simp [hgb]

/-- Claim C4 (amended).  The validator returns true for every string of
exactly four dot-separated groups of one to three decimal digits whose
values are at most 255; it returns false for the empty string, for an
IPv4-shaped string with a group whose value is above 255, for a
colon-free string with fewer than four dot groups, and for a string of
four dot groups one of which holds a character that is neither a decimal
digit nor a newline.  The original claim said every all-digit group with
value at most 255 is accepted, but a group of more than three digits (a
value written with leading zeros) is rejected by the shape regex, and a
string with fewer than four dot groups can still be accepted through the
IPv6 arm, so both clauses are narrowed accordingly; the dollar anchors
of both regexes tolerate one trailing newline, which the non-digit
clause therefore leaves aside. -/
theorem claim4_validator (s : String) :
    ((strSplitCh s '.').length = 4 →
        (∀ p ∈ strSplitCh s '.',
            1 ≤ p.data.length ∧ p.data.length ≤ 3 ∧ p.data.all pyIsDigit = true
              ∧ pyInt p ≤ 255) →
        validate_ip_address s = true)
      ∧ validate_ip_address "" = false
      ∧ (ipv4Shape s = true → (∃ p ∈ strSplitCh s '.', 255 < pyInt p) →
          validate_ip_address s = false)
      ∧ ((strSplitCh s '.').length < 4 → (strSplitCh s ':').length = 1 →
          validate_ip_address s = false)
      ∧ ((strSplitCh s '.').length = 4 →
          (∃ p ∈ strSplitCh s '.', ∃ c ∈ p.data, pyIsDigit c = false ∧ c ≠ '\n') →
          validate_ip_address s = false) := by
  refine ⟨?_, by decide, ?_, ?_, ?_⟩
  · intro h4 hall
    have hlen : (strSplitCh s '.').length
        = (splitPred (fun c => decide (c = '.')) s.data).length := by
      simp [strSplitCh]
    have hcore : ipv4Core s.data = true := by
      simp only [ipv4Core, Bool.and_eq_true, beq_iff_eq, List.all_eq_true]
      constructor
      · omega
      · intro g hg
        have hmem : String.mk g ∈ strSplitCh s '.' :=
          List.mem_map_of_mem String.mk hg
        rcases hall (String.mk g) hmem with ⟨h1, h2, h3, _⟩
        simp only [decide_eq_true_eq, Bool.and_eq_true]
        exact ⟨⟨h1, h2⟩, List.all_eq_true.mp h3⟩
    have hshape : ipv4Shape s = true := by
      simp [ipv4Shape, pyAnchored, hcore]
    simp only [validate_ip_address, hshape, if_pos]
    rw [List.all_eq_true]
    intro p hp
    rcases hall p hp with ⟨_, _, _, h4v⟩
    simp [h4v]
  · intro hshape hex
    simp only [validate_ip_address, hshape, if_pos]
    rcases hex with ⟨p, hp, hv⟩
    apply List.all_eq_false.mpr
    exact ⟨p, hp, by simp [Nat.not_le_of_lt hv]⟩
  · intro hlt hcolon
    have hdotlen : (strSplitCh s '.').length
        = (splitPred (fun c => decide (c = '.')) s.data).length := by
      simp [strSplitCh]
    have hcolonlen : (strSplitCh s ':').length
        = (splitPred (fun c => decide (c = ':')) s.data).length := by
      simp [strSplitCh]
    have hdots := splitPred_length (fun c => decide (c = '.')) s.data
    have hcolons := splitPred_length (fun c => decide (c = ':')) s.data
    have h4core : ∀ cs : List Char, cs.countP (fun c => decide (c = '.')) + 1 ≠ 4 →
        ipv4Core cs = false := by
      intro cs hcs
      have hl := splitPred_length (fun c => decide (c = '.')) cs
      simp only [ipv4Core, Bool.and_eq_false_iff, beq_eq_false_iff_ne]
      left
      omega
    have h6core : ∀ cs : List Char, cs.countP (fun c => decide (c = ':')) = 0 →
        ipv6Core cs = false := by
      intro cs hcs
      have hl := splitPred_length (fun c => decide (c = ':')) cs
      simp only [ipv6Core, Bool.and_eq_false_iff, decide_eq_false_iff_not]
      left
      left
      omega
    have hshape4 : ipv4Shape s = false := by
      apply pyAnchored_eq_false
      · exact h4core s.data (by omega)
      · intro _
        apply h4core
        have hsub := List.Sublist.countP_le (fun c => decide (c = '.'))
          (List.dropLast_sublist s.data)
        omega
    have hshape6 : ipv6Shape s = false := by
      apply pyAnchored_eq_false
      · exact h6core s.data (by omega)
      · intro _
        apply h6core
        have hsub := List.Sublist.countP_le (fun c => decide (c = ':'))
          (List.dropLast_sublist s.data)
        omega
    simp [validate_ip_address, hshape4, hshape6]
  · intro h4 hex
    rcases hex with ⟨p, hp, c, hcp, hcd, hcn⟩
    rcases List.mem_map.mp hp with ⟨g, hg, hgp⟩
    have hcg : c ∈ g := by
      rw [← hgp] at hcp
      exact hcp
    have hsep := splitPred_mem_sep (fun c2 => decide (c2 = '.')) c s.data g hg hcg
    have hcs : c ∈ s.data := hsep.1
    have hcnotdot : ¬ c = '.' := by simpa using hsep.2
    have hbad4 : ∀ cs : List Char, c ∈ cs → ipv4Core cs = false := by
      intro cs hmem
      rcases splitPred_mem_of_mem (fun c2 => decide (c2 = '.')) c cs hmem
        (by simpa using hcnotdot) with ⟨g2, hg2, hcg2⟩
      simp only [ipv4Core, Bool.and_eq_false_iff]
      right
      apply List.all_eq_false.mpr
      refine ⟨g2, hg2, ?_⟩
      simp only [Bool.and_eq_true, not_and]
      intro _ hall2
      have hx := List.all_eq_true.mp hall2 c hcg2
      rw [hcd] at hx
      simp at hx
    have hdotmem : ('.' : Char) ∈ s.data := by
      have hlen : (strSplitCh s '.').length
          = (splitPred (fun c2 => decide (c2 = '.')) s.data).length := by
        simp [strSplitCh]
      rcases splitPred_exists_sep (fun c2 => decide (c2 = '.')) s.data (by omega)
        with ⟨d, hd, hdp⟩
      have hde : d = '.' := of_decide_eq_true hdp
      exact hde ▸ hd
    have hbad6 : ∀ cs : List Char, ('.' : Char) ∈ cs → ipv6Core cs = false := by
      intro cs hmem
      rcases splitPred_mem_of_mem (fun c2 => decide (c2 = ':')) '.' cs hmem (by decide)
        with ⟨g2, hg2, hdg⟩
      simp only [ipv6Core, Bool.and_eq_false_iff]
      right
      apply List.all_eq_false.mpr
      refine ⟨g2, hg2, ?_⟩
      simp only [Bool.and_eq_true, not_and]
      intro _
      rw [Bool.not_eq_true]
      apply List.all_eq_false.mpr
      exact ⟨'.', hdg, by decide⟩
    have hshape4 : ipv4Shape s = false := by
      apply pyAnchored_eq_false
      · exact hbad4 s.data hcs
      · intro hnl
        exact hbad4 _ (mem_dropLast_of_ne_getLast hcs hnl hcn)
    have hshape6 : ipv6Shape s = false := by
      apply pyAnchored_eq_false
      · exact hbad6 s.data hdotmem
      · intro hnl
        exact hbad6 _ (mem_dropLast_of_ne_getLast hdotmem hnl (by decide))
    simp [validate_ip_address, hshape4, hshape6]

/-- Claim C4 counterexample.  The string of four all-digit dot groups
0008.8.8.8, every group of which has value at most 255, is rejected (the
shape regex caps groups at three digits), and the colon string 1:2:3,
which has fewer than four dot groups, is accepted through the IPv6 arm:
both universal clauses of the original claim fail as stated. -/
theorem claim4_counterexample :
    validate_ip_address "0008.8.8.8" = false
      ∧ (strSplitCh "0008.8.8.8" '.').length = 4
      ∧ (∀ p ∈ strSplitCh "0008.8.8.8" '.', p.data.all pyIsDigit = true ∧ pyInt p ≤ 255)
      ∧ validate_ip_address "1:2:3" = true
      ∧ (strSplitCh "1:2:3" '.').length < 4 := by
  refine ⟨by decide, by decide, ?_, by decide, by decide⟩
  decide

/-- Claim C4 witness: the amended clauses evaluated at the example
strings of the specification. -/
theorem claim4_witness :
    validate_ip_address "8.8.8.8" = true
      ∧ validate_ip_address "" = false
      ∧ validate_ip_address "8.8.8.256" = false
      ∧ validate_ip_address "8.8.8" = false
      ∧ validate_ip_address "8.8.8.x" = false := by
  refine ⟨?_, (claim4_validator "").2.1, ?_, ?_, ?_⟩
  · exact (claim4_validator "8.8.8.8").1 (by decide) (by decide)
  · exact (claim4_validator "8.8.8.256").2.2.1 (by decide) (by decide)
  · exact (claim4_validator "8.8.8").2.2.2.1 (by decide) (by decide)
  · exact (claim4_validator "8.8.8.x").2.2.2.2 (by decide) (by decide)

theorem foldl_append_map {α β : Type} (f : α → β) :
    ∀ (l : List α) (acc : List β),
      l.foldl (fun a s => a ++ [f s]) acc = acc ++ l.map f := by
  intro l
  induction l with
  | nil => intro acc; simp
  | cons x t ih => intro acc; simp [ih, List.foldl_cons]

theorem foldl_append_filter_map {α β : Type} (f : α → β) (p : α → Bool) :
    ∀ (l : List α) (acc : List β),
      l.foldl (fun a s => if p s then a ++ [f s] else a) acc
        = acc ++ (l.filter p).map f := by
  intro l
  induction l with
  | nil => intro acc; simp
  | cons x t ih =>
    intro acc
    by_cases hx : p x = true <;> simp [ih, List.foldl_cons, List.filter_cons, hx]

/-- Claim C6.  The orchestrator builds the server list in the fixed
order of the claim: discovered current servers labelled with the Current
tag when test_current, then custom servers passing validation labelled
with the Custom tag (invalid ones absent, the rest unaffected), then the
3-entry top3 table or the 10-entry public table when test_public. -/
theorem claim6_server_list_order (current_dns : List String)
    (custom_servers : Option (List String)) (test_current test_public top3_only : Bool) :
    servers_to_test current_dns custom_servers test_current test_public top3_only
        = (if test_current then current_dns.map (fun s => ("Current-" ++ s, s)) else [])
          ++ ((custom_servers.getD []).filter validate_ip_address).map
              (fun s => ("Custom-" ++ s, s))
          ++ (if test_public then
                (if top3_only then top3_dns_servers else public_dns_servers)
              else [])
      ∧ top3_dns_servers.length = 3 ∧ public_dns_servers.length = 10 := by
  refine ⟨?_, rfl, rfl⟩
  simp only [servers_to_test]
  rcases custom_servers with _ | cs
  · cases test_current <;> cases test_public <;> cases top3_only <;>
      simp [foldl_append_map, Option.getD]
  · cases test_current <;> cases test_public <;> cases top3_only <;>
      simp [foldl_append_map, foldl_append_filter_map, Option.getD, List.append_assoc]

/-- Claim C6 witness: the list construction instantiated on one current
server, one valid and one invalid custom server, and the full public
set. -/
theorem claim6_witness :
    servers_to_test ["9.9.9.9"] (some ["1.1.1.1", "not-an-ip"]) true true false
        = (if true then ["9.9.9.9"].map (fun s => ("Current-" ++ s, s)) else [])
          ++ (((some ["1.1.1.1", "not-an-ip"]).getD []).filter validate_ip_address).map
              (fun s => ("Custom-" ++ s, s))
          ++ (if true then (if false then top3_dns_servers else public_dns_servers) else [])
      ∧ top3_dns_servers.length = 3 ∧ public_dns_servers.length = 10 :=
  claim6_server_list_order ["9.9.9.9"] (some ["1.1.1.1", "not-an-ip"]) true true false

/-- Claim C7.  A single probe never escapes as an exception in the model:
on a timeout, on a raised invocation error, and on a nonzero return code
the probe returns failure with the infinite sentinel; a false success flag
always comes with the sentinel; and a finite elapsed time is returned only
together with success, carrying exactly the measured time. -/
theorem claim7_probe_total (dig_available : Bool) (proc : ProcResult) (t : ℚ) :
    query_dns dig_available ProcResult.timedOut t = (false, PFloat.inf)
      ∧ query_dns dig_available ProcResult.raised t = (false, PFloat.inf)
      ∧ (∀ (rc : Int) (out : String), rc ≠ 0 →
          query_dns dig_available (ProcResult.completed rc out) t = (false, PFloat.inf))
      ∧ ((query_dns dig_available proc t).1 = false →
          (query_dns dig_available proc t).2 = PFloat.inf)
      ∧ ((query_dns dig_available proc t).2 ≠ PFloat.inf →
          (query_dns dig_available proc t).1 = true
            ∧ (query_dns dig_available proc t).2 = PFloat.val t) := by
  refine ⟨rfl, rfl, ?_, ?_, ?_⟩
  · intro rc out hrc
    have hb : (rc == 0) = false := by simpa using hrc
    simp [query_dns, hb]
  · intro h1
    cases proc with
    | timedOut => rfl
    | raised => rfl
    | completed rc out =>
      by_cases hb : (rc == 0) = true
      · simp only [query_dns, hb, if_pos] at h1 ⊢
        simp [h1]
      · have hb2 : (rc == 0) = false := by simpa using hb
        simp [query_dns, hb2]
  · intro h2
    cases proc with
    | timedOut => exact absurd rfl h2
    | raised => exact absurd rfl h2
    | completed rc out =>
      by_cases hb : (rc == 0) = true
      · by_cases hs : querySuccess dig_available out = true
        · constructor <;> simp [query_dns, hb, hs]
        · have hs2 : querySuccess dig_available out = false := by simpa using hs
          exact absurd (by simp [query_dns, hb, hs2]) h2
      · have hb2 : (rc == 0) = false := by simpa using hb
        exact absurd (by simp [query_dns, hb2]) h2

/-- Claim C7 witness: a nonzero exit status yields the failed shape, and
a zero status with nonempty dig output yields success with the measured
time. -/
theorem claim7_witness :
    query_dns true (ProcResult.completed 1 "out") 7 = (false, PFloat.inf)
      ∧ (query_dns true (ProcResult.completed 0 "1.2.3.4") 7).1 = true
      ∧ (query_dns true (ProcResult.completed 0 "1.2.3.4") 7).2 = PFloat.val 7 := by
  refine ⟨(claim7_probe_total true (ProcResult.completed 1 "out") 7).2.2.1 1 "out"
    (by decide), ?_, ?_⟩
  · exact ((claim7_probe_total true (ProcResult.completed 0 "1.2.3.4") 7).2.2.2.2
      (by decide)).1
  · exact ((claim7_probe_total true (ProcResult.completed 0 "1.2.3.4") 7).2.2.2.2
      (by decide)).2

/-- Claim C8.  With neither lookup tool available, the run ends in the
configuration-error outcome for every combination of the remaining
options, an outcome that carries no results and is distinct from every
completed run, in particular from a completed run with an empty result
list. -/
theorem claim8_no_tool_config_error (env : DiscoveryEnv)
    (probe : String → String → Bool × PFloat) (test_current test_public : Bool)
    (custom_servers : Option (List String)) (top3_only : Bool) :
    run_benchmark false false env probe test_current test_public custom_servers top3_only
        = RunOutcome.configError
      ∧ ∀ results : List ServerResult,
          RunOutcome.configError ≠ RunOutcome.completed results :=
  ⟨rfl, fun _ h => by cases h⟩

/-- Claim C8 witness: the configuration-error outcome instantiated on a
concrete environment and option set, distinguished from the completed
run with the empty result list. -/
theorem claim8_witness :
    run_benchmark false false exEnv exFailProbe true true none false = RunOutcome.configError
      ∧ RunOutcome.configError ≠ RunOutcome.completed [] :=
  ⟨(claim8_no_tool_config_error exEnv exFailProbe true true none false).1,
    (claim8_no_tool_config_error exEnv exFailProbe true true none false).2 []⟩

/-- Claim C9 (amended).  On the sorted valid list headed by the overall
best result: when a current-labelled result exists and the head is not
current-labelled, the reporter computes the improvement formula from the
best current result and the overall best, with a rank strictly greater
than one; when the head is current-labelled and at least one other valid
result exists, it reports that the current server is already fastest.
The original claim promised the already-fastest report whenever the
current server ranks first, but with a single valid result the source
skips the whole comparison block and reports neither message. -/
theorem claim9_recommendation (results : List ServerResult) (b cb : ServerResult)
    (rest crest : List ServerResult)
    (hsort : sortValid results = b :: rest)
    (hcur : (b :: rest).filter (fun r => pyStartsWith r.name "Current-") = cb :: crest) :
    (pyStartsWith b.name "Current-" = false →
        recommendFrom (sortValid results)
            = Recommendation.improvement
                ((b :: rest).findIdx (fun r => r == cb) + 1)
                (((cb.avg_time.toQ - b.avg_time.toQ) / cb.avg_time.toQ) * 100)
          ∧ 1 < (b :: rest).findIdx (fun r => r == cb) + 1)
      ∧ (pyStartsWith b.name "Current-" = true → rest ≠ [] →
          recommendFrom (sortValid results) = Recommendation.alreadyFastest) := by
  rw [hsort]
  have hcbmem : cb ∈ (b :: rest).filter (fun r => pyStartsWith r.name "Current-") := by
    rw [hcur]
    exact List.mem_cons_self _ _
  have hcbcur : pyStartsWith cb.name "Current-" = true := (List.mem_filter.mp hcbmem).2
  have hcbin : cb ∈ b :: rest := (List.mem_filter.mp hcbmem).1
  constructor
  · intro hb
    have hne : b ≠ cb := by
      intro he
      rw [← he] at hcbcur
      rw [hb] at hcbcur
      cases hcbcur
    have hbeq : (b == cb) = false := by simpa using hne
    have hcbrest : cb ∈ rest := by
      rcases List.mem_cons.mp hcbin with h1 | h2
      · exact absurd h1.symm hne
      · exact h2
    have hlen : 1 < (b :: rest).length := by
      cases rest with
      | nil => simp at hcbrest
      | cons _ _ => simp [List.length_cons]
    have hidx : (b :: rest).findIdx (fun r => r == cb)
        = rest.findIdx (fun r => r == cb) + 1 := by
      rw [List.findIdx_cons]
      simp [hbeq]
    have hgt : 1 < (b :: rest).findIdx (fun r => r == cb) + 1 := by
      rw [hidx]
      omega
    refine ⟨?_, hgt⟩
    simp only [recommendFrom, hcur]
    rw [if_pos hlen, if_pos hgt]
  · intro hb hrest
    have hcb_eq : cb = b := by
      have hflt : (b :: rest).filter (fun r => pyStartsWith r.name "Current-")
          = b :: rest.filter (fun r => pyStartsWith r.name "Current-") := by
        simp [List.filter_cons, hb]
      rw [hflt] at hcur
      exact (List.cons_eq_cons.mp hcur).1.symm
    have hlen : 1 < (b :: rest).length := by
      cases rest with
      | nil => exact absurd rfl hrest
      | cons _ _ => simp [List.length_cons]
    have hidx0 : (b :: rest).findIdx (fun r => r == cb) = 0 := by
      rw [List.findIdx_cons]
      simp [hcb_eq]
    simp only [recommendFrom, hcur]
    rw [if_pos hlen]
    simp [hidx0]

/-- Claim C9 witness: with a current result of average 100 ranked behind
a best result of average 50, the reporter emits the improvement record
built from the claimed formula, at rank two. -/
theorem claim9_witness :
    recommendFrom (sortValid [exCurrent, exBest])
        = Recommendation.improvement
            ([exBest, exCurrent].findIdx (fun r => r == exCurrent) + 1)
            (((exCurrent.avg_time.toQ - exBest.avg_time.toQ) / exCurrent.avg_time.toQ) * 100)
      ∧ [exBest, exCurrent].findIdx (fun r => r == exCurrent) + 1 = 2 := by
  have h := claim9_recommendation [exCurrent, exBest] exBest exCurrent [exCurrent] []
    (by decide) (by decide)
  exact ⟨(h.1 (by decide)).1, by decide⟩

/-- Claim C9 counterexample: a result list whose only valid entry is the
current server leaves the recommendation block silent, so the reporter
does not report that no improvement is available even though the current
server ranks first. -/
theorem claim9_counterexample :
    sortValid [exCurrent] = [exCurrent]
      ∧ pyStartsWith exCurrent.name "Current-" = true
      ∧ recommendFrom (sortValid [exCurrent]) = Recommendation.noReport
      ∧ Recommendation.noReport ≠ Recommendation.alreadyFastest := by
  refine ⟨by decide, by decide, by decide, fun h => by cases h⟩

/-- Claim C10.  The reporter called on an empty result list returns the
silent output in both modes, and the silent output differs from every
JSON emission, in particular from the empty JSON array. -/
theorem claim10_empty_silent :
    print_results [] true = ReportOutput.silent
      ∧ print_results [] false = ReportOutput.silent
      ∧ ∀ results : List ServerResult, ReportOutput.jsonOut results ≠ ReportOutput.silent :=
  ⟨rfl, rfl, fun _ h => by cases h⟩

example : validate_ip_address "8.8.8.8" = true := by decide
example : validate_ip_address "8.8.8.256" = false := by decide
example : validate_ip_address "8.8.8" = false := by decide
example : validate_ip_address "" = false := by decide
example : validate_ip_address "::1" = true := by decide
example : validate_ip_address "0008.8.8.8" = false := by decide
example : validate_ip_address "2606:4700:4700::1111" = true := by decide
example : validate_ip_address "8.8.8.8\n" = true := by decide
example : validate_ip_address "1:2:3\n" = true := by decide
example : validate_ip_address "8.8.8.8\n\n" = false := by decide
example : validate_ip_address "8.8.8.256\n" = false := by decide
example : validate_ip_address "٨.٨.٨.٨" = true := by decide
example : validate_ip_address "8.8.8.٢٥٦" = false := by decide
example :
    get_current_dns_servers
      ⟨some ["nameserver 1.1.1.1", "nameserver 1.1.1.1", "nameserver 127.0.0.53"],
        none, none, none⟩ = ["1.1.1.1"] := by decide
example :
    get_current_dns_servers ⟨some ["nameserver ::1"], none, none, none⟩ = ["::1"] := by
  decide
example :
    statusTokens (some (0, "Link 2\nDNS Servers: 9.9.9.9\n8.8.8.8\nDomain = x\n")) =
      ["9.9.9.9", "8.8.8.8"] := by decide

end DnsBench
